import Mathlib

/-!
A shallow embedding of the HTTP/1.x message parser and serializer of
`src/lib.rs` (the most complete iteration of this repository), together
with theorems settling the specification claims.

Bytes are modelled as `Nat` (wire values 0..255) and byte slices as
`List Nat`.  The nom "streaming" combinators the source uses are
modelled directly; Rust panics (slice overruns, `unwrap` on `None`,
an explicit `panic` macro or `unimplemented` macro) are modelled by the
`panicked` outcome.  `String::to_uppercase` is modelled byte-wise on
ASCII: the header tokens and values the claims touch are ASCII, and on
the ASCII fragment Rust's Unicode uppercasing agrees with the byte map.
The `context(..)` combinator of the source only attaches diagnostic
labels to errors and is dropped (it never changes the outcome kind).
-/

namespace Http

/-- Byte-slice input, `parse::Input = &[u8]`. -/
abbrev Input := List Nat

/-- Bytes of an ASCII string literal (codepoint = byte on ASCII). -/
def ascii (s : String) : Input := s.data.map Char.toNat

/-- Byte-wise ASCII uppercasing, modelling `str::to_uppercase` on the
ASCII fragment. -/
def upperBytes (s : Input) : Input :=
  s.map fun b => if 0x61 ≤ b && b ≤ 0x7A then b - 0x20 else b

/-- UTF-8 continuation byte (10xxxxxx). -/
def isCont (b : Nat) : Bool := 0x80 ≤ b && b ≤ 0xBF

/-- Validity check performed by `std::str::from_utf8` (its `unwrap` in the
source panics exactly when this is false). -/
def validUTF8 : List Nat → Bool
  | [] => true
  | b :: rest =>
    if b ≤ 0x7F then validUTF8 rest
    else if 0xC2 ≤ b && b ≤ 0xDF then
      match rest with
      | c1 :: r => isCont c1 && validUTF8 r
      | [] => false
    else if b = 0xE0 then
      match rest with
      | c1 :: c2 :: r => (0xA0 ≤ c1 && c1 ≤ 0xBF) && isCont c2 && validUTF8 r
      | _ => false
    else if (0xE1 ≤ b && b ≤ 0xEC) || b = 0xEE || b = 0xEF then
      match rest with
      | c1 :: c2 :: r => isCont c1 && isCont c2 && validUTF8 r
      | _ => false
    else if b = 0xED then
      match rest with
      | c1 :: c2 :: r => (0x80 ≤ c1 && c1 ≤ 0x9F) && isCont c2 && validUTF8 r
      | _ => false
    else if b = 0xF0 then
      match rest with
      | c1 :: c2 :: c3 :: r =>
        (0x90 ≤ c1 && c1 ≤ 0xBF) && isCont c2 && isCont c3 && validUTF8 r
      | _ => false
    else if 0xF1 ≤ b && b ≤ 0xF3 then
      match rest with
      | c1 :: c2 :: c3 :: r => isCont c1 && isCont c2 && isCont c3 && validUTF8 r
      | _ => false
    else if b = 0xF4 then
      match rest with
      | c1 :: c2 :: c3 :: r =>
        (0x80 ≤ c1 && c1 ≤ 0x8F) && isCont c2 && isCont c3 && validUTF8 r
      | _ => false
    else false

/-- Outcome of a nom streaming parser over `Input`:
success with remaining input and value, `Err::Incomplete`,
`Err::Error` (recoverable, context labels dropped), or a Rust panic. -/
inductive PResult (α : Type) where
  | ok : Input → α → PResult α
  | incomplete : PResult α
  | error : PResult α
  | panicked : PResult α
deriving DecidableEq

/-- Sequencing of parse results (the `?` operator of the source). -/
def PResult.bind {α β : Type} : PResult α → (Input → α → PResult β) → PResult β
  | .ok i a, f => f i a
  | .incomplete, _ => .incomplete
  | .error, _ => .error
  | .panicked, _ => .panicked

-- ---------- byte predicates (`CtrlChars`, nom `is_alphabetic`) ----------

/-- nom `character::is_alphabetic`: ASCII letter. -/
def isAlphabetic (b : Nat) : Bool :=
  (0x41 ≤ b && b ≤ 0x5A) || (0x61 ≤ b && b ≤ 0x7A)

/-- Byte equals ASCII space, `CtrlChars::Space`. -/
def isSpaceByte (b : Nat) : Bool := b == 0x20

/-- Byte equals CR, `CtrlChars::CR`. -/
def isCR (b : Nat) : Bool := b == 0x0D

/-- Byte equals colon, `CtrlChars::Colon`. -/
def isColon (b : Nat) : Bool := b == 0x3A

-- ---------- nom streaming combinators used by the source ----------

/-- `bytes::streaming::take_while`: longest prefix satisfying `p`;
`Incomplete` when the whole input satisfies `p` (the boundary byte has
not arrived yet), including on empty input. -/
def takeWhileS (p : Nat → Bool) (i : Input) : PResult Input :=
  let pre := i.takeWhile p
  if pre.length = i.length then .incomplete
  else .ok (i.drop pre.length) pre

/-- `bytes::streaming::take_till`: bytes up to the first byte satisfying
`p`; `Incomplete` when no byte of the input satisfies `p`. -/
def takeTillS (p : Nat → Bool) (i : Input) : PResult Input :=
  takeWhileS (fun b => !(p b)) i

/-- Streaming `take_while1` (used for `space1`): like `take_while` but
errors when the first byte does not satisfy `p`. -/
def takeWhile1S (p : Nat → Bool) (i : Input) : PResult Input :=
  match i with
  | [] => .incomplete
  | b :: _ => if p b then takeWhileS p i else .error

/-- `bytes::streaming::tag`: `Incomplete` when the input is a proper
prefix of the tag, `Error` on a mismatch, otherwise consume the tag. -/
def tagS (t : Input) (i : Input) : PResult Input :=
  if i.length < t.length then
    if t.take i.length = i then .incomplete else .error
  else if i.take t.length = t then .ok (i.drop t.length) t
  else .error

/-- `character::streaming::crlf`. -/
def crlfS (i : Input) : PResult Input := tagS [0x0D, 0x0A] i

/-- `character::streaming::space1`: one or more of space / tab. -/
def space1S (i : Input) : PResult Input :=
  takeWhile1S (fun b => b == 0x20 || b == 0x09) i

/-- nom `sequence::preceded`. -/
def preceded {α β : Type} (f : Input → PResult α) (g : Input → PResult β)
    (i : Input) : PResult β :=
  (f i).bind fun i1 _ => g i1

/-- nom `sequence::terminated`. -/
def terminated {α β : Type} (f : Input → PResult α) (g : Input → PResult β)
    (i : Input) : PResult α :=
  (f i).bind fun i1 a => (g i1).bind fun i2 _ => .ok i2 a

-- ---------- Method ----------

/-- The closed `Method` enumeration of the source. -/
inductive Method where
  | OPTIONS
  | GET
  | HEAD
  | POST
  | PUT
  | DELETE
  | TRACE
  | CONNECT
deriving DecidableEq

/-- Wire bytes of a method (strum `Display`: the variant name). -/
def Method.toBytes : Method → Input
  | .OPTIONS => ascii "OPTIONS"
  | .GET => ascii "GET"
  | .HEAD => ascii "HEAD"
  | .POST => ascii "POST"
  | .PUT => ascii "PUT"
  | .DELETE => ascii "DELETE"
  | .TRACE => ascii "TRACE"
  | .CONNECT => ascii "CONNECT"

/-- strum `EnumString` `from_str`: exact (case-sensitive) match against
the variant names. -/
def Method.fromStr (s : Input) : Option Method :=
  if s = ascii "OPTIONS" then some .OPTIONS
  else if s = ascii "GET" then some .GET
  else if s = ascii "HEAD" then some .HEAD
  else if s = ascii "POST" then some .POST
  else if s = ascii "PUT" then some .PUT
  else if s = ascii "DELETE" then some .DELETE
  else if s = ascii "TRACE" then some .TRACE
  else if s = ascii "CONNECT" then some .CONNECT
  else none

/-- `Method::serialize`: `string(self.to_string())`. -/
def Method.serialize (m : Method) : Input := m.toBytes

/-- `Method::parse`: take contiguous alphabetic bytes (streaming), then
map through `from_str`; the source panics on an unrecognized token.
The `from_utf8` unwrap never fires here: the taken bytes are ASCII
letters, hence valid UTF-8. -/
def Method.parse (i : Input) : PResult Method :=
  (takeWhileS isAlphabetic i).bind fun i1 m =>
    match Method.fromStr m with
    | some res => .ok i1 res
    | none => .panicked

-- ---------- Header / Headers ----------

/-- A parsed header (`Header { key, value }`), both already normalized. -/
structure Header where
  key : Input
  value : Input
deriving DecidableEq

/-- `Header::parse`: `take_till(colon)` then tag ": ", value
`take_till(CR)` then crlf; both key and value go through
`from_utf8(..).unwrap().to_uppercase()` (panic on invalid UTF-8). -/
def Header.parse (i : Input) : PResult Header :=
  (terminated (takeTillS isColon) (tagS (ascii ": ")) i).bind fun i1 key =>
  (terminated (takeTillS isCR) crlfS i1).bind fun i2 value =>
  if validUTF8 key && validUTF8 value then
    .ok i2 { key := upperBytes key, value := upperBytes value }
  else .panicked

/-- `HashMap::insert`: replace the value of an existing key, otherwise
add the pair (iteration order of the map is unspecified in the source;
the model keeps first-insertion order). -/
def insertA : List (Input × Input) → Input → Input → List (Input × Input)
  | [], k, v => [(k, v)]
  | (k', v') :: rest, k, v =>
    if k' = k then (k, v) :: rest else (k', v') :: insertA rest k v

/-- `HashMap::get`. -/
def lookupA : List (Input × Input) → Input → Option Input
  | [], _ => none
  | (k', v') :: rest, k => if k' = k then some v' else lookupA rest k

/-- The `Headers` map of the source, modelled as an association list. -/
structure Headers where
  headers : List (Input × Input)
deriving DecidableEq

/-- `Headers::new`. -/
def Headers.new : Headers := ⟨[]⟩

/-- `Headers::insert`: stores key and value verbatim (no case
normalization happens here in the source). -/
def Headers.insert (h : Headers) (k v : Input) : Headers :=
  ⟨insertA h.headers k v⟩

/-- `Headers::get`. -/
def Headers.get (h : Headers) (k : Input) : Option Input :=
  lookupA h.headers k

/-- `Headers::serialize`: each pair as `KEY: VALUE CRLF`. -/
def Headers.serialize (h : Headers) : Input :=
  (h.headers.map fun kv => kv.1 ++ ascii ": " ++ kv.2 ++ [0x0D, 0x0A]).flatten

/-- nom `many_till(Header::parse, crlf)`, written with fuel.  Each
successful `Header::parse` consumes at least the ": " tag and the CRLF
(4 bytes), so fuel `i.length + 1` never runs out before the loop ends;
the fuel-exhaustion branch is unreachable on those runs. -/
def manyTillHeaders : Nat → Input → PResult (List Header)
  | 0, _ => .error
  | fuel + 1, i =>
    match crlfS i with
    | .ok i1 _ => .ok i1 []
    | .incomplete => .incomplete
    | .panicked => .panicked
    | .error =>
      match Header.parse i with
      | .ok i1 h =>
        match manyTillHeaders fuel i1 with
        | .ok i2 hs => .ok i2 (h :: hs)
        | .incomplete => .incomplete
        | .error => .error
        | .panicked => .panicked
      | .incomplete => .incomplete
      | .error => .error
      | .panicked => .panicked

/-- `Headers::parse`: run `many_till(Header::parse, crlf)` and fold the
parsed headers into the map with `insert` (duplicates overwrite). -/
def Headers.parse (i : Input) : PResult Headers :=
  (manyTillHeaders (i.length + 1) i).bind fun i1 hs =>
    .ok i1 ⟨hs.foldl (fun m h => insertA m h.key h.value) []⟩

/-- `CommonHeaders::ContentLength.to_string()`. -/
def contentLengthKey : Input := ascii "CONTENT-LENGTH"

/-- `CommonHeaders::ContentEncoding.to_string()`. -/
def contentEncodingKey : Input := ascii "CONTENT-ENCODING"

-- ---------- Body ----------

/-- The `Body` enumeration (`Multi` is structurally present but never
produced by parsing). -/
inductive Body where
  | single : Input → Body
  | multi : Input → Body
deriving DecidableEq

/-- `SinglePartBody::parse`: copies `i[..len]` (or all of `i` when `len`
is `None`) into the body, and returns the ORIGINAL input `i` as the
remaining input — it consumes nothing.  The slice `i[..len]` panics when
`len > i.len()`. -/
def SinglePartBody.parse (i : Input) (len : Option Nat) : PResult Input :=
  match len with
  | some n => if n ≤ i.length then .ok i (i.take n) else .panicked
  | none => .ok i i

/-- `Body::parse`: wraps `SinglePartBody::parse` in `Body::Single`. -/
def Body.parse (i : Input) (len : Option Nat) : PResult Body :=
  (SinglePartBody.parse i len).bind fun i1 d => .ok i1 (.single d)

/-- `str::parse::<usize>()` on the header value: optional leading plus
sign, then one or more ASCII digits, value below 2^64 (64-bit usize);
anything else is a parse error, which the source turns into `None` via
`.ok()`. -/
def asciiDigit (b : Nat) : Bool := 0x30 ≤ b && b ≤ 0x39

/-- Numeric value of a digit string (most significant first). -/
def digitsValue (s : Input) : Nat :=
  s.foldl (fun acc b => acc * 10 + (b - 0x30)) 0

/-- See `asciiDigit`; this is `str::parse::<usize>().ok()`. -/
def parseUsize (s : Input) : Option Nat :=
  let t := match s with
    | b :: rest => if b = 0x2B then rest else s
    | [] => s
  if t ≠ [] ∧ t.all asciiDigit ∧ digitsValue t < 2 ^ 64 then
    some (digitsValue t)
  else none

-- ---------- Request ----------

/-- The `Protocol` enumeration. -/
inductive Protocol where
  | HTTP
  | HTTPS
deriving DecidableEq

/-- The `Request` structure (textual fields kept as wire bytes). -/
structure Request where
  method : Method
  protocol : Protocol
  host : Option Input
  path : Input
  port : Option Nat
  version : Input
  headers : Headers
  body : Option Body
deriving DecidableEq

/-- The start-line phase of `Request::parse`: method, then
`preceded(space1, take_till(Space))` for the path, then
`preceded(space1, terminated(take_till(CR), crlf))` for the version. -/
def Request.parseStart (i : Input) : PResult (Method × Input × Input) :=
  (Method.parse i).bind fun i1 m =>
  (preceded space1S (takeTillS isSpaceByte) i1).bind fun i2 path =>
  (preceded space1S (terminated (takeTillS isCR) crlfS) i2).bind fun i3 version =>
  .ok i3 (m, path, version)

/-- The closure inside `Request::parse`: start-line, headers, then the
body decision — when `CONTENT-LENGTH` is present its value goes through
`parse::<usize>().ok()` and `Body::parse` runs with that optional
length; when absent the body is `None`.  The final struct construction
applies `from_utf8(..).unwrap()` to path and version (panic on invalid
UTF-8).  Returns the remaining input together with the request. -/
def Request.parseInner (i : Input) : PResult Request :=
  (Request.parseStart i).bind fun i1 mpv =>
  (Headers.parse i1).bind fun i2 headers =>
  (match headers.get contentLengthKey with
    | some len => (Body.parse i2 (parseUsize len)).bind fun i3 b => .ok i3 (some b)
    | none => .ok i2 (none : Option Body)).bind fun i3 body =>
  if validUTF8 mpv.2.1 && validUTF8 mpv.2.2 then
    .ok i3
      { method := mpv.1
        protocol := .HTTP
        host := none
        path := mpv.2.1
        port := none
        version := mpv.2.2
        headers := headers
        body := body }
  else .panicked

/-- Outcome of the public `Request::parse`, which returns
`Result<Self, ..>` and discards the remaining input
(`let (_, req) = ..`). -/
inductive Outcome (α : Type) where
  | success : α → Outcome α
  | incomplete : Outcome α
  | error : Outcome α
  | panicked : Outcome α
deriving DecidableEq

/-- `Request::parse` (public entry point). -/
def Request.parse (i : Input) : Outcome Request :=
  match Request.parseInner i with
  | .ok _ req => .success req
  | .incomplete => .incomplete
  | .error => .error
  | .panicked => .panicked

/-- `Request::serialize`: method, space, path, space, version, CRLF,
headers, CRLF.  The body field is never rendered. -/
def Request.serialize (r : Request) : Input :=
  r.method.serialize ++ [0x20] ++ r.path ++ [0x20] ++ r.version
    ++ [0x0D, 0x0A] ++ r.headers.serialize ++ [0x0D, 0x0A]

/-- `Request::default`. -/
def Request.default : Request :=
  { method := .GET
    protocol := .HTTP
    host := none
    path := ascii "/"
    port := some 80
    version := ascii "HTTP/1.1"
    headers := Headers.new
    body := none }

-- ---------- Content decoding dispatch ----------

/-- The three decompression algorithms the source dispatches to. -/
inductive CompressionAlg where
  | gzip
  | deflate
  | zlib
deriving DecidableEq

/-- Outcome of `SinglePartBody::decompress`: new body bytes, a decoder
error propagated as `Err`, or the `unimplemented` panic. -/
inductive DecompressResult where
  | ok : Input → DecompressResult
  | err : DecompressResult
  | panicked : DecompressResult
deriving DecidableEq

/-- `SinglePartBody::decompress`: dispatch on the `CONTENT-ENCODING`
header value.  The concrete flate2 decoders are external collaborators,
passed in as `dec` (`none` models a decoder error).  Any other `Some`
value hits the `unimplemented` macro (panic); absence leaves the body
bytes untouched. -/
def SinglePartBody.decompress (dec : CompressionAlg → Input → Option Input)
    (headers : Headers) (data : Input) : DecompressResult :=
  match headers.get contentEncodingKey with
  | some v =>
    if v = ascii "GZIP" then
      match dec .gzip data with
      | some d => .ok d
      | none => .err
    else if v = ascii "DEFLATE" then
      match dec .deflate data with
      | some d => .ok d
      | none => .err
    else if v = ascii "ZLIB" then
      match dec .zlib data with
      | some d => .ok d
      | none => .err
    else .panicked
  | none => .ok data

end Http

namespace Http

-- ---------- shared helper lemmas ----------

/-- Looking up a key right after a `HashMap` insert yields the inserted
value (association-list model of `HashMap::insert` / `get`). -/
theorem lookupA_insertA (l : List (Input × Input)) (k v : Input) :
    lookupA (insertA l k v) k = some v := by
  induction l with
  | nil => simp [insertA, lookupA]
  | cons kv rest ih =>
    obtain ⟨k1, v1⟩ := kv
    by_cases h : k1 = k
    · simp [insertA, lookupA, h]
    · simp [insertA, lookupA, h, ih]

end Http

namespace Http

-- ---------- C1 ----------

/-- C1: for every input whose start line parses and whose header block
contains a CONTENT-LENGTH header whose value parses as a non-negative
integer N, with at least N bytes of post-header input remaining (and
path and version valid UTF-8, else the source panics on `unwrap`), the
request parser yields a body holding exactly the first N bytes of the
post-header input `r`, and leaves the whole post-header input — in
particular everything after those N bytes — unconsumed as the remaining
input. -/
theorem content_length_frames_body_exactly
    (i i1 r v : Input) (m : Method) (pth ver : Input) (hdrs : Headers) (N : Nat)
    (h1 : Request.parseStart i = .ok i1 (m, pth, ver))
    (h2 : Headers.parse i1 = .ok r hdrs)
    (h3 : hdrs.get contentLengthKey = some v)
    (h4 : parseUsize v = some N)
    (h5 : N ≤ r.length)
    (h6 : (validUTF8 pth && validUTF8 ver) = true) :
    Request.parseInner i =
      .ok r
        { method := m
          protocol := .HTTP
          host := none
          path := pth
          port := none
          version := ver
          headers := hdrs
          body := some (.single (r.take N)) } := by
  unfold Request.parseInner
  rw [h1]
  simp only [PResult.bind]
  rw [h2]
  simp only [PResult.bind, h3]
  unfold Body.parse SinglePartBody.parse
  rw [h4]
  simp only [PResult.bind, if_pos h5, h6, if_true]

/-- C1 witness: the exact framing example of the specification.  The
input carries CONTENT-LENGTH 5 and the post-header remainder is
helloXXXXX; the parsed body is exactly hello and the remaining input is
the untouched post-header remainder (XXXXX unconsumed). -/
theorem content_length_frames_body_exactly_witness :
    Request.parseStart
        (ascii "GET / HTTP/1.0\x0D\x0ACONTENT-LENGTH: 5\x0D\x0A\x0D\x0AhelloXXXXX") =
      .ok (ascii "CONTENT-LENGTH: 5\x0D\x0A\x0D\x0AhelloXXXXX")
        (Method.GET, ascii "/", ascii "HTTP/1.0") ∧
    Request.parseInner
        (ascii "GET / HTTP/1.0\x0D\x0ACONTENT-LENGTH: 5\x0D\x0A\x0D\x0AhelloXXXXX") =
      .ok (ascii "helloXXXXX")
        { method := Method.GET
          protocol := .HTTP
          host := none
          path := ascii "/"
          port := none
          version := ascii "HTTP/1.0"
          headers := Headers.mk [(contentLengthKey, ascii "5")]
          body := some (.single ((ascii "helloXXXXX").take 5)) } :=
  ⟨rfl,
    content_length_frames_body_exactly _ _ _ _ Method.GET _ _ _ 5
      rfl rfl rfl rfl (by decide) (by decide)⟩

-- ---------- C2 ----------

/-- C2 (claim is right, code is wrong): on a message whose
CONTENT-LENGTH is 5 but whose post-header remainder holds only 2 bytes,
the source does not return the recoverable Incomplete result — the
slice expression `i[..len]` in `SinglePartBody::parse` overruns and the
program panics. -/
theorem short_body_input_panics :
    Request.parse (ascii "GET / HTTP/1.0\x0D\x0ACONTENT-LENGTH: 5\x0D\x0A\x0D\x0Ahi") =
      .panicked ∧
    Request.parse (ascii "GET / HTTP/1.0\x0D\x0ACONTENT-LENGTH: 5\x0D\x0A\x0D\x0Ahi") ≠
      .incomplete := by
  exact ⟨rfl, by decide⟩

-- ---------- C3 ----------

/-- C3 counterexample: with CONTENT-LENGTH value AB (not a valid
non-negative integer) the parse does NOT fail with a Malformed result —
`len.parse().ok()` silently maps the parse error to `None` and the
whole remaining input `xy` becomes the body. -/
theorem invalid_content_length_succeeds_counterexample :
    Request.parse (ascii "GET / HTTP/1.0\x0D\x0ACONTENT-LENGTH: AB\x0D\x0A\x0D\x0Axy") =
      .success
        { method := Method.GET
          protocol := .HTTP
          host := none
          path := ascii "/"
          port := none
          version := ascii "HTTP/1.0"
          headers := Headers.mk [(contentLengthKey, ascii "AB")]
          body := some (.single (ascii "xy")) } := rfl

/-- C3 amended: when the CONTENT-LENGTH value does not parse as a
non-negative 64-bit integer, request parsing does not fail; the length
is treated as absent and the entire remaining post-header input is
consumed into the body (read-to-end framing). -/
theorem invalid_content_length_reads_to_end
    (i i1 r v : Input) (m : Method) (pth ver : Input) (hdrs : Headers)
    (h1 : Request.parseStart i = .ok i1 (m, pth, ver))
    (h2 : Headers.parse i1 = .ok r hdrs)
    (h3 : hdrs.get contentLengthKey = some v)
    (h4 : parseUsize v = none)
    (h6 : (validUTF8 pth && validUTF8 ver) = true) :
    Request.parseInner i =
      .ok r
        { method := m
          protocol := .HTTP
          host := none
          path := pth
          port := none
          version := ver
          headers := hdrs
          body := some (.single r) } := by
  unfold Request.parseInner
  rw [h1]
  simp only [PResult.bind]
  rw [h2]
  simp only [PResult.bind, h3]
  unfold Body.parse SinglePartBody.parse
  rw [h4]
  simp only [PResult.bind, h6, if_true]

/-- C3 witness for the amended statement, at the counterexample input:
value AB fails integer parsing and the two remaining bytes xy become
the body. -/
theorem invalid_content_length_reads_to_end_witness :
    Request.parseStart
        (ascii "GET / HTTP/1.0\x0D\x0ACONTENT-LENGTH: AB\x0D\x0A\x0D\x0Axy") =
      .ok (ascii "CONTENT-LENGTH: AB\x0D\x0A\x0D\x0Axy")
        (Method.GET, ascii "/", ascii "HTTP/1.0") ∧
    parseUsize (ascii "AB") = none ∧
    Request.parseInner
        (ascii "GET / HTTP/1.0\x0D\x0ACONTENT-LENGTH: AB\x0D\x0A\x0D\x0Axy") =
      .ok (ascii "xy")
        { method := Method.GET
          protocol := .HTTP
          host := none
          path := ascii "/"
          port := none
          version := ascii "HTTP/1.0"
          headers := Headers.mk [(contentLengthKey, ascii "AB")]
          body := some (.single (ascii "xy")) } :=
  ⟨rfl, rfl,
    invalid_content_length_reads_to_end _ _ _ _ Method.GET _ _ _
      rfl rfl rfl rfl (by decide)⟩

end Http

namespace Http

-- ---------- C4 ----------

/-- C4 counterexample: on the lowercase token get the method parser
does not return a recoverable error result at all — the source hits the
explicit `panic` arm, so the model yields the panic outcome, not the
error outcome the claim describes. -/
theorem unknown_method_panics_counterexample :
    Method.parse (ascii "get ") = .panicked ∧
    Method.parse (ascii "get ") ≠ .error := by
  exact ⟨rfl, by decide⟩

/-- C4 amended: whenever the leading run of contiguous alphabetic bytes
ends (a non-alphabetic byte follows) and the taken token is not exactly
one of the eight canonical uppercase method names, `Method::parse`
panics (aborts the program) instead of returning an error result; in
particular there is no case-folding, so lowercase get panics too. -/
theorem unknown_method_token_panics (i i1 tok : Input)
    (h1 : takeWhileS isAlphabetic i = .ok i1 tok)
    (h2 : Method.fromStr tok = none) :
    Method.parse i = .panicked := by
  unfold Method.parse
  rw [h1]
  simp only [PResult.bind, h2]

/-- C4 witness: the lowercase token get is taken (terminated by the
space), is not a canonical method name, and the parser panics. -/
theorem unknown_method_token_panics_witness :
    takeWhileS isAlphabetic (ascii "get ") = .ok (ascii " ") (ascii "get") ∧
    Method.fromStr (ascii "get") = none ∧
    Method.parse (ascii "get ") = .panicked :=
  ⟨rfl, rfl, unknown_method_token_panics _ _ _ rfl rfl⟩

-- ---------- C5 ----------

/-- C5 counterexample: the builder-side `Headers::insert` stores key
and value verbatim — after inserting Host / example.com through it,
looking up HOST yields nothing (and certainly not EXAMPLE.COM). -/
theorem insert_does_not_uppercase_counterexample :
    (Headers.new.insert (ascii "Host") (ascii "example.com")).get (ascii "HOST") =
      none ∧
    (Headers.new.insert (ascii "Host") (ascii "example.com")).get (ascii "HOST") ≠
      some (ascii "EXAMPLE.COM") := by
  exact ⟨rfl, by decide⟩

/-- C5 amended: only the wire parser normalizes case — `Header::parse`
uppercases both key and value (parsing Host: example.com yields the
pair HOST / EXAMPLE.COM), while the insert / header builder API stores
key and value verbatim: a value inserted under a key is found under
exactly that key, and inserting Host / example.com then looking up HOST
finds nothing. -/
theorem header_case_normalization_amended :
    Header.parse (ascii "Host: example.com\x0D\x0A") =
      .ok [] { key := ascii "HOST", value := ascii "EXAMPLE.COM" } ∧
    (∀ (h : Headers) (k v : Input), (h.insert k v).get k = some v) ∧
    (Headers.new.insert (ascii "Host") (ascii "example.com")).get (ascii "HOST") =
      none := by
  refine ⟨rfl, ?_, rfl⟩
  intro h k v
  exact lookupA_insertA h.headers k v

-- ---------- C6 ----------

/-- C6: for every Method variant, serializing the default request built
with that method and parsing the resulting wire bytes succeeds and
recovers the same method. -/
theorem method_roundtrip (m : Method) :
    ∃ r, Request.parse (Request.serialize { Request.default with method := m }) =
      .success r ∧ r.method = m := by
  cases m <;> exact ⟨_, rfl, rfl⟩

-- ---------- C7 ----------

/-- C7 counterexample: a request carrying the body hi serializes to the
start line, the (empty) header block and the blank CRLF only — the body
bytes are not appended, contradicting the claimed verbatim-body suffix. -/
theorem serializer_omits_body_counterexample :
    Request.serialize { Request.default with body := some (.single (ascii "hi")) } =
      ascii "GET / HTTP/1.1\x0D\x0A\x0D\x0A" ∧
    Request.serialize { Request.default with body := some (.single (ascii "hi")) } ≠
      ascii "GET / HTTP/1.1\x0D\x0A\x0D\x0A" ++ ascii "hi" := by
  exact ⟨rfl, by decide⟩

/-- C7 amended: for every request the serializer output is the start
line METHOD SP PATH SP VERSION CRLF, then each stored header as
KEY: VALUE CRLF (in the map order of the model; the source order is
unspecified), then one blank CRLF — and nothing else: the body field is
never rendered, so serialization is unchanged when the body is dropped. -/
theorem serialize_shape_no_body (r : Request) :
    Request.serialize r =
      r.method.serialize ++ [0x20] ++ r.path ++ [0x20] ++ r.version ++ [0x0D, 0x0A]
        ++ (r.headers.headers.map fun kv =>
              kv.1 ++ [0x3A, 0x20] ++ kv.2 ++ [0x0D, 0x0A]).flatten
        ++ [0x0D, 0x0A] ∧
    Request.serialize r = Request.serialize { r with body := none } := by
  exact ⟨rfl, rfl⟩

end Http

namespace Http

-- ---------- C8 ----------

/-- C8 counterexample: with CONTENT-ENCODING BROTLI (a non-empty value
other than GZIP, DEFLATE and ZLIB) the source hits the `unimplemented`
macro: the model yields the panic outcome, not the error outcome the
claim describes (shown here with a decoder collaborator that always
succeeds, so the panic cannot be blamed on decoding). -/
theorem unknown_encoding_panics_counterexample :
    SinglePartBody.decompress (fun _ d => some d)
      (Headers.mk [(contentEncodingKey, ascii "BROTLI")]) [1, 2] = .panicked ∧
    SinglePartBody.decompress (fun _ d => some d)
      (Headers.mk [(contentEncodingKey, ascii "BROTLI")]) [1, 2] ≠ .err := by
  exact ⟨rfl, by decide⟩

/-- C8 amended: for every decoder collaborator, header map and body,
when CONTENT-ENCODING is present with any value other than GZIP,
DEFLATE and ZLIB, decompression panics (program abort through the
`unimplemented` macro) rather than returning an error result; and when
CONTENT-ENCODING is absent the body bytes are returned untouched. -/
theorem decompress_dispatch_amended
    (dec : CompressionAlg → Input → Option Input) (hdrs : Headers) (data v : Input)
    (hv : hdrs.get contentEncodingKey = some v)
    (h1 : v ≠ ascii "GZIP") (h2 : v ≠ ascii "DEFLATE") (h3 : v ≠ ascii "ZLIB") :
    SinglePartBody.decompress dec hdrs data = .panicked ∧
    ∀ habs : Headers, habs.get contentEncodingKey = none →
      SinglePartBody.decompress dec habs data = .ok data := by
  constructor
  · unfold SinglePartBody.decompress
    rw [hv]
    simp [h1, h2, h3]
  · intro habs hget
    unfold SinglePartBody.decompress
    rw [hget]

/-- C8 witness: instantiated at the BROTLI header (panic) and at the
empty header map (bytes untouched). -/
theorem decompress_dispatch_amended_witness :
    SinglePartBody.decompress (fun _ d => some d)
      (Headers.mk [(contentEncodingKey, ascii "BROTLI")]) [1, 2] = .panicked ∧
    SinglePartBody.decompress (fun _ d => some d) Headers.new [1, 2] = .ok [1, 2] := by
  have h := decompress_dispatch_amended (fun _ d => some d)
    (Headers.mk [(contentEncodingKey, ascii "BROTLI")]) [1, 2] (ascii "BROTLI")
    rfl (by decide) (by decide) (by decide)
  exact ⟨h.1, h.2 Headers.new rfl⟩

-- ---------- C9 ----------

/-- C9: feeding the truncated request bytes GET / HTTP/1.0 CRLF Host: a
(no terminator) yields the recoverable Incomplete outcome, and parsing
the concatenation of the same bytes with CRLF CRLF succeeds with method
GET, path /, version HTTP/1.0 (and the HOST header normalized to A). -/
theorem incremental_resumption :
    Request.parse (ascii "GET / HTTP/1.0\x0D\x0AHost: a") = .incomplete ∧
    Request.parse (ascii "GET / HTTP/1.0\x0D\x0AHost: a" ++ ascii "\x0D\x0A\x0D\x0A") =
      .success
        { method := Method.GET
          protocol := .HTTP
          host := none
          path := ascii "/"
          port := none
          version := ascii "HTTP/1.0"
          headers := Headers.mk [(ascii "HOST", ascii "A")]
          body := none } :=
  ⟨rfl, rfl⟩

-- ---------- C10 ----------

/-- C10: for every input slice and every in-bounds optional length,
body parsing succeeds and returns the original slice unchanged as the
remaining input — it copies the body bytes out but consumes nothing. -/
theorem body_parse_consumes_nothing (i : Input) (len : Option Nat)
    (h : ∀ n, len = some n → n ≤ i.length) :
    ∃ d, Body.parse i len = .ok i (.single d) := by
  cases len with
  | none => exact ⟨i, rfl⟩
  | some n =>
    refine ⟨i.take n, ?_⟩
    unfold Body.parse SinglePartBody.parse
    simp only [PResult.bind, if_pos (h n rfl)]

/-- C10 witness: on the three-byte input abc with length 2, body
parsing yields some body and leaves the input unconsumed. -/
theorem body_parse_consumes_nothing_witness :
    (∀ n, (some 2 : Option Nat) = some n → n ≤ (ascii "abc").length) ∧
    ∃ d, Body.parse (ascii "abc") (some 2) = .ok (ascii "abc") (.single d) := by
  have hh : ∀ n, (some 2 : Option Nat) = some n → n ≤ (ascii "abc").length := by
    intro n hn
    injection hn with h2
    subst h2
    decide
  exact ⟨hh, body_parse_consumes_nothing (ascii "abc") (some 2) hh⟩

end Http
